import Mathlib

/-!
A shallow embedding of the `SimpleWallet` payment backend from
`crates/cdk-portal-wallet/src/lib.rs` (the `MintPayment` implementation for a
simulated auto-paying Cashu/CDK wallet), together with theorems checking the
natural-language specification against it.

Modelling conventions:
* `[u8; 32]` payment hashes are modelled as `Nat` (only equality matters).
* `Amount` (a `u64` wrapper) is modelled as `Nat`; no arithmetic overflows occur
  in the embedded code paths.
* The `HashMap<[u8;32], (String, bool, Amount, CurrencyUnit)>` ledger is
  modelled as an association list with HashMap-style `insert` (replace the
  existing binding for the key, else append) and `get` (first binding wins).
* Randomness (`rand::rng().random()`, `Uuid::new_v4()`) is modelled by passing
  the generated values as explicit arguments.
* The bounded tokio mpsc channel (capacity 32) is modelled by its buffer
  contents plus a liveness flag for the receiving end; `Sender::send(..).await`
  enqueues when there is capacity, fails (and here the error is discarded) when
  the receiver is gone, and suspends awaiting capacity when the buffer is full
  with a living receiver.  An operation that would suspend this way is modelled
  by returning `none`.
* `payment::Error` is used by this backend only through its `Custom(String)`
  constructor, so the error type carries exactly that.
-/

/-- Models `cdk_common::nuts::CurrencyUnit` (the variants relevant here). -/
inductive CurrencyUnit where
  | sat
  | msat
  | usd
  | eur
  | custom (s : String)
deriving DecidableEq, Repr

/-- Models `cdk_common::payment::Error` as used by this backend: every error it
constructs is `payment::Error::Custom(_)`. -/
inductive PaymentError where
  | custom (s : String)
deriving DecidableEq, Repr

/-- Models `cdk_common::nuts::MeltQuoteState`. -/
inductive MeltQuoteState where
  | unpaid
  | pending
  | paid
  | unknown
  | failed
deriving DecidableEq, Repr

/-- Models `cdk_common::payment::PaymentIdentifier`; the backend only inspects
the `PaymentHash` variant, every other variant is handled by a catch-all arm,
represented here by `customId`. -/
inductive PaymentIdentifier where
  | paymentHash (h : Nat)
  | customId (s : String)
deriving DecidableEq, Repr

/-- One ledger entry: the `(String, bool, Amount, CurrencyUnit)` tuple stored in
the `invoices` map — `(invoice_id, paid, amount, unit)`. -/
structure InvoiceRecord where
  invoice_id : String
  paid : Bool
  amount : Nat
  unit : CurrencyUnit
deriving DecidableEq, Repr

/-- The `invoices` map, `payment_hash -> (invoice_id, paid, amount, unit)`. -/
abbrev Ledger := List (Nat × InvoiceRecord)

/-- `HashMap::get`: the binding for `h`, if any (first binding wins). -/
def Ledger.get (l : Ledger) (h : Nat) : Option InvoiceRecord :=
  match l with
  | [] => none
  | (k, v) :: rest => if k = h then some v else Ledger.get rest h

/-- `HashMap::insert`: replace the existing binding for `h`, else append. -/
def Ledger.insert (l : Ledger) (h : Nat) (r : InvoiceRecord) : Ledger :=
  match l with
  | [] => [(h, r)]
  | (k, v) :: rest =>
    if k = h then (h, r) :: rest else (k, v) :: Ledger.insert rest h r

/-- The lookup performed by `make_payment`'s
`invoices.iter_mut().find_map(|(hash, (id, ..))| (id == &invoice_id) ...)`:
the first entry whose `invoice_id` equals the target. -/
def Ledger.findByInvoiceId (l : Ledger) (target : String) :
    Option (Nat × InvoiceRecord) :=
  match l with
  | [] => none
  | (k, v) :: rest =>
    if v.invoice_id = target then some (k, v) else Ledger.findByInvoiceId rest target

/-- The mutation performed by `make_payment`: find the first entry whose
`invoice_id` equals the target, set its `paid` flag to `true`, and return the
hash, the updated record (the code reads `*amount`/`unit` after `*paid = true`),
and the updated ledger. -/
def Ledger.markPaidByInvoiceId (l : Ledger) (target : String) :
    Option (Nat × InvoiceRecord × Ledger) :=
  match l with
  | [] => none
  | (k, v) :: rest =>
    if v.invoice_id = target then
      some (k, { v with paid := true }, (k, { v with paid := true }) :: rest)
    else
      match Ledger.markPaidByInvoiceId rest target with
      | some (h, r, rest2) => some (h, r, (k, v) :: rest2)
      | none => none

/-- State of the bounded tokio mpsc channel (`mpsc::channel(32)`): the queued
payment hashes (front = oldest), the capacity, and whether the receiving end is
still alive. -/
structure ChannelState where
  buffer : List Nat
  capacity : Nat
  receiverAlive : Bool
deriving DecidableEq, Repr

/-- Immediate outcome of `Sender::send(v).await` on a bounded tokio channel. -/
inductive SendOutcome where
  | sent (c : ChannelState)
  | closedDropped
  | wouldBlock
deriving DecidableEq, Repr

/-- Semantics of `Sender::send(v).await`: an error if the receiver is gone,
enqueue if there is capacity, otherwise suspend until capacity is available. -/
def mpscSend (c : ChannelState) (v : Nat) : SendOutcome :=
  if !c.receiverAlive then .closedDropped
  else if c.buffer.length < c.capacity then .sent { c with buffer := c.buffer ++ [v] }
  else .wouldBlock

/-- Models `cdk_common::payment::Bolt11Settings`. -/
structure Bolt11Settings where
  mpp : Bool
  unit : CurrencyUnit
  invoice_description : Bool
  amountless : Bool
  bolt12 : Bool
deriving DecidableEq, Repr

/-- The `SimpleWallet` struct: channel (sender side state), the takeable
receiver slot (`Arc<Mutex<Option<Receiver<_>>>>`, modelled by presence), the
invoices ledger, the cancellation token's state, the `wait_invoice_is_active`
atomic flag, and the settings. -/
structure WalletState where
  channel : ChannelState
  receiverSlot : Bool
  invoices : Ledger
  cancelTokenCancelled : Bool
  waitInvoiceIsActive : Bool
  settings : Bolt11Settings
deriving DecidableEq, Repr

/-- `SimpleWallet::new(currency_unit)`. -/
def SimpleWallet.new (currency_unit : CurrencyUnit) : WalletState :=
  { channel := { buffer := [], capacity := 32, receiverAlive := true }
    receiverSlot := true
    invoices := []
    cancelTokenCancelled := false
    waitInvoiceIsActive := false
    settings :=
      { mpp := false
        unit := currency_unit
        invoice_description := true
        amountless := false
        bolt12 := false } }

/-- Models `Bolt11Invoice` as the backend observes it: its `to_string()`
rendering (used as the matching key in `make_payment`) and
`amount_milli_satoshis()`. -/
structure Bolt11Invoice where
  rendered : String
  amountMilliSatoshis : Option Nat
deriving DecidableEq, Repr

/-- Models `MeltOptions` through the only observation made of it,
`amount_msat()`. -/
structure MeltOptions where
  amountMsat : Nat
deriving DecidableEq, Repr

/-- Models `Bolt11OutgoingPaymentOptions` (the fields this backend reads). -/
structure Bolt11OutgoingOptions where
  bolt11 : Bolt11Invoice
  melt_options : Option MeltOptions
deriving DecidableEq, Repr

/-- Models `cdk_common::payment::OutgoingPaymentOptions`; the Bolt12 payload is
never inspected (the arm returns an error immediately). -/
inductive OutgoingPaymentOptions where
  | bolt11 (o : Bolt11OutgoingOptions)
  | bolt12
deriving DecidableEq, Repr

/-- Models `Bolt11IncomingPaymentOptions` (the fields this backend reads). -/
structure Bolt11IncomingOptions where
  amount : Nat
  unix_expiry : Option Nat
deriving DecidableEq, Repr

/-- Models `cdk_common::payment::IncomingPaymentOptions`; the Bolt12 payload is
never inspected. -/
inductive IncomingPaymentOptions where
  | bolt11 (o : Bolt11IncomingOptions)
  | bolt12
deriving DecidableEq, Repr

/-- Models `cdk_common::payment::CreateIncomingPaymentResponse`. -/
structure CreateIncomingPaymentResponse where
  request_lookup_id : PaymentIdentifier
  request : String
  expiry : Option Nat
deriving DecidableEq, Repr

/-- Models `cdk_common::payment::WaitPaymentResponse`. -/
structure WaitPaymentResponse where
  payment_identifier : PaymentIdentifier
  payment_amount : Nat
  unit : CurrencyUnit
  payment_id : String
deriving DecidableEq, Repr

/-- Models `cdk_common::payment::MakePaymentResponse`. -/
structure MakePaymentResponse where
  payment_lookup_id : PaymentIdentifier
  payment_proof : Option String
  status : MeltQuoteState
  total_spent : Nat
  unit : CurrencyUnit
deriving DecidableEq, Repr

/-- Models `cdk_common::payment::PaymentQuoteResponse`. -/
structure PaymentQuoteResponse where
  request_lookup_id : Option PaymentIdentifier
  amount : Nat
  fee : Nat
  state : MeltQuoteState
  unit : CurrencyUnit
deriving DecidableEq, Repr

/-- Models `cdk_common::payment::Event` (only `PaymentReceived` is produced). -/
inductive Event where
  | paymentReceived (r : WaitPaymentResponse)
deriving DecidableEq, Repr

/-- `SimpleWallet::is_wait_invoice_active`: load of the atomic flag. -/
def isWaitInvoiceActive (w : WalletState) : Bool :=
  w.waitInvoiceIsActive

/-- `SimpleWallet::cancel_wait_invoice`: cancels the cancellation token. -/
def cancelWaitInvoice (w : WalletState) : WalletState :=
  { w with cancelTokenCancelled := true }

/-- The stream handed out by `wait_payment_event`: either the
`futures::stream::empty()` returned when the receiver slot was empty, or the
`ReceiverStream::new(receiver).filter_map(..)` stream over the channel. -/
inductive EventStream where
  | empty
  | attached
deriving DecidableEq, Repr

/-- `SimpleWallet::wait_payment_event`: take the receiver out of the slot; if it
was present return the filter-mapped receiver stream, else return the empty
stream.  Both branches return `Ok`.  (The code performs no other state change:
in particular it never stores into `wait_invoice_is_active` and never consults
`wait_invoice_cancel_token`.) -/
def waitPaymentEvent (w : WalletState) :
    Except PaymentError (EventStream × WalletState) :=
  if w.receiverSlot then .ok (.attached, { w with receiverSlot := false })
  else .ok (.empty, w)

/-- The body of the `filter_map` closure in `wait_payment_event`: look the
delivered payment hash up in the ledger at delivery time; emit a
`PaymentReceived` event if the record exists and is paid, else drop the
signal. -/
def signalToEvent (invoices : Ledger) (h : Nat) : Option Event :=
  match invoices.get h with
  | some r =>
    if r.paid then
      some (.paymentReceived
        { payment_identifier := .paymentHash h
          payment_amount := r.amount
          unit := r.unit
          payment_id := r.invoice_id })
    else none
  | none => none

/-- The events an attached stream delivers when driven over the currently
queued signals, against the wallet's current ledger: exactly the `filter_map`
pipeline of `wait_payment_event`.  The empty stream delivers nothing.  Note
that delivery depends only on the channel buffer and the ledger; the
cancellation token plays no part in the pipeline. -/
def streamEvents (w : WalletState) (s : EventStream) : List Event :=
  match s with
  | .empty => []
  | .attached => w.channel.buffer.filterMap (signalToEvent w.invoices)

/-- `SimpleWallet::get_payment_quote`.  `randomHash` stands for
`rand::rng().random()`.  The `_unit` argument is received but unused, exactly
as in the source. -/
def getPaymentQuote (w : WalletState) (unitArg : CurrencyUnit)
    (options : OutgoingPaymentOptions) (randomHash : Nat) :
    Except PaymentError PaymentQuoteResponse :=
  match options with
  | .bolt12 => .error (.custom "Unsupported Bolt12")
  | .bolt11 o =>
    let amountMsat? : Option Nat :=
      match o.melt_options with
      | some amt => some amt.amountMsat
      | none => o.bolt11.amountMilliSatoshis
    match amountMsat? with
    | none => .error (.custom "Unknown invoice amount")
    | some amount_msat =>
      .ok
        { request_lookup_id := some (.paymentHash randomHash)
          amount := amount_msat
          fee := 0
          state := .unpaid
          unit := .msat }

/-- `SimpleWallet::make_payment`.  The `_unit` argument is received but unused,
exactly as in the source. -/
def makePayment (w : WalletState) (unitArg : CurrencyUnit)
    (options : OutgoingPaymentOptions) :
    Except PaymentError (MakePaymentResponse × WalletState) :=
  match options with
  | .bolt12 => .error (.custom "Unsupported Bolt12")
  | .bolt11 o =>
    let invoice_id := o.bolt11.rendered
    match w.invoices.markPaidByInvoiceId invoice_id with
    | some (payment_hash, rec, invoices2) =>
      .ok
        ({ payment_lookup_id := .paymentHash payment_hash
           payment_proof := some invoice_id
           status := .paid
           total_spent := rec.amount
           unit := rec.unit },
         { w with invoices := invoices2 })
    | none => .error (.custom "Invoice not found")

/-- `SimpleWallet::create_incoming_payment_request`.  `invoiceId` stands for
`Uuid::new_v4().to_string()` and `randomHash` for `rand::rng().random()`.
Returns `none` when the call would suspend indefinitely awaiting channel
capacity (`self.sender.send(random_hash).await` on a full channel with a living
receiver); the `let _ =` in the source discards a send error, so a closed
channel leaves the channel state unchanged and the call still succeeds. -/
def createIncomingPaymentRequest (w : WalletState) (unitArg : CurrencyUnit)
    (options : IncomingPaymentOptions) (invoiceId : String) (randomHash : Nat) :
    Option (Except PaymentError (CreateIncomingPaymentResponse × WalletState)) :=
  match options with
  | .bolt12 => some (.error (.custom "Unsupported Bolt12"))
  | .bolt11 o =>
    let amount : Option Nat := some o.amount
    let payment_amount := amount.getD 0
    let invoices2 := w.invoices.insert randomHash
      { invoice_id := invoiceId, paid := true, amount := payment_amount, unit := unitArg }
    let response : CreateIncomingPaymentResponse :=
      { request_lookup_id := .paymentHash randomHash
        request := invoiceId
        expiry := none }
    match mpscSend w.channel randomHash with
    | .sent c2 => some (.ok (response, { w with invoices := invoices2, channel := c2 }))
    | .closedDropped => some (.ok (response, { w with invoices := invoices2 }))
    | .wouldBlock => none

/-- `SimpleWallet::check_incoming_payment_status`. -/
def checkIncomingPaymentStatus (w : WalletState)
    (payment_identifier : PaymentIdentifier) :
    Except PaymentError (List WaitPaymentResponse) :=
  match payment_identifier with
  | .paymentHash payment_hash =>
    match w.invoices.get payment_hash with
    | some r =>
      if r.paid then
        .ok [{ payment_identifier := payment_identifier
               payment_amount := r.amount
               unit := r.unit
               payment_id := r.invoice_id }]
      else .ok []
    | none => .ok []
  | _ => .ok []

/-- `SimpleWallet::check_outgoing_payment`. -/
def checkOutgoingPayment (w : WalletState)
    (payment_identifier : PaymentIdentifier) :
    Except PaymentError MakePaymentResponse :=
  match payment_identifier with
  | .paymentHash payment_hash =>
    match w.invoices.get payment_hash with
    | some r =>
      .ok
        { payment_lookup_id := payment_identifier
          payment_proof := some r.invoice_id
          status := if r.paid then .paid else .unpaid
          total_spent := r.amount
          unit := r.unit }
    | none => .error (.custom "Not found")
  | _ => .error (.custom "Not found")

/-! ### Ledger lemmas -/

/-- Whether an `Except` result produced by the backend is a success. -/
def exceptIsOk {α : Type} : Except PaymentError α → Bool
  | .ok _ => true
  | .error _ => false

/-- Key uniqueness, the invariant `HashMap` maintains for the `invoices` map. -/
def Ledger.wf (l : Ledger) : Prop := (l.map Prod.fst).Nodup

theorem Ledger.get_insert_self (l : Ledger) (h : Nat) (r : InvoiceRecord) :
    Ledger.get (Ledger.insert l h r) h = some r := by
  induction l with
  | nil => simp [Ledger.insert, Ledger.get]
  | cons kv rest ih =>
    obtain ⟨k, v⟩ := kv
    by_cases hk : k = h
    · simp [Ledger.insert, Ledger.get, hk]
    · simp [Ledger.insert, Ledger.get, hk, ih]

theorem Ledger.get_insert_ne (l : Ledger) (k h : Nat) (r : InvoiceRecord)
    (hne : k ≠ h) : Ledger.get (Ledger.insert l k r) h = Ledger.get l h := by
  induction l with
  | nil => simp [Ledger.insert, Ledger.get, hne]
  | cons kv rest ih =>
    obtain ⟨k0, v⟩ := kv
    by_cases hk : k0 = k
    · subst hk
      simp [Ledger.insert, Ledger.get, hne, Ne.symm hne]
    · by_cases hh : k0 = h
      · subst hh
        simp [Ledger.insert, Ledger.get, hk]
      · simp [Ledger.insert, Ledger.get, hk, hh, ih]

theorem Ledger.markPaid_cons_pos (k : Nat) (v : InvoiceRecord) (rest : Ledger)
    (t : String) (hv : v.invoice_id = t) :
    Ledger.markPaidByInvoiceId ((k, v) :: rest) t =
      some (k, { v with paid := true }, (k, { v with paid := true }) :: rest) := by
  simp [Ledger.markPaidByInvoiceId, hv]

theorem Ledger.markPaid_cons_neg_none (k : Nat) (v : InvoiceRecord)
    (rest : Ledger) (t : String) (hv : ¬ v.invoice_id = t)
    (hrec : Ledger.markPaidByInvoiceId rest t = none) :
    Ledger.markPaidByInvoiceId ((k, v) :: rest) t = none := by
  simp [Ledger.markPaidByInvoiceId, hv, hrec]

theorem Ledger.markPaid_cons_neg_some (k : Nat) (v : InvoiceRecord)
    (rest : Ledger) (t : String) (h : Nat) (r : InvoiceRecord) (rest2 : Ledger)
    (hv : ¬ v.invoice_id = t)
    (hrec : Ledger.markPaidByInvoiceId rest t = some (h, r, rest2)) :
    Ledger.markPaidByInvoiceId ((k, v) :: rest) t = some (h, r, (k, v) :: rest2) := by
  simp [Ledger.markPaidByInvoiceId, hv, hrec]

theorem Ledger.markPaid_none_of_find_none (l : Ledger) (t : String)
    (hfind : Ledger.findByInvoiceId l t = none) :
    Ledger.markPaidByInvoiceId l t = none := by
  induction l with
  | nil => simp [Ledger.markPaidByInvoiceId]
  | cons kv rest ih =>
    obtain ⟨k, v⟩ := kv
    by_cases hv : v.invoice_id = t
    · simp [Ledger.findByInvoiceId, hv] at hfind
    · simp only [Ledger.findByInvoiceId, hv, ite_false] at hfind
      exact Ledger.markPaid_cons_neg_none k v rest t hv (ih hfind)

theorem Ledger.markPaid_of_find (l : Ledger) (t : String) (h : Nat)
    (rec : InvoiceRecord)
    (hfind : Ledger.findByInvoiceId l t = some (h, rec)) :
    ∃ l2, Ledger.markPaidByInvoiceId l t = some (h, { rec with paid := true }, l2) := by
  induction l with
  | nil => simp [Ledger.findByInvoiceId] at hfind
  | cons kv rest ih =>
    obtain ⟨k, v⟩ := kv
    by_cases hv : v.invoice_id = t
    · simp only [Ledger.findByInvoiceId, hv, ite_true, Option.some.injEq,
        Prod.mk.injEq] at hfind
      obtain ⟨hk, hr⟩ := hfind
      subst hk; subst hr
      exact ⟨(k, { v with paid := true }) :: rest,
        Ledger.markPaid_cons_pos k v rest t hv⟩
    · simp only [Ledger.findByInvoiceId, hv, ite_false] at hfind
      obtain ⟨l2, hl2⟩ := ih hfind
      exact ⟨(k, v) :: l2, Ledger.markPaid_cons_neg_some k v rest t h _ l2 hv hl2⟩

theorem Ledger.markPaid_mem_keys (l : Ledger) (t : String) (h : Nat)
    (rec : InvoiceRecord) (l2 : Ledger)
    (hrun : Ledger.markPaidByInvoiceId l t = some (h, rec, l2)) :
    h ∈ l.map Prod.fst := by
  induction l generalizing l2 with
  | nil => simp [Ledger.markPaidByInvoiceId] at hrun
  | cons kv rest ih =>
    obtain ⟨k, v⟩ := kv
    by_cases hv : v.invoice_id = t
    · rw [Ledger.markPaid_cons_pos k v rest t hv] at hrun
      simp only [Option.some.injEq, Prod.mk.injEq] at hrun
      rw [List.map_cons, ← hrun.1]
      exact List.mem_cons_self _ _
    · cases hrec : Ledger.markPaidByInvoiceId rest t with
      | none =>
        rw [Ledger.markPaid_cons_neg_none k v rest t hv hrec] at hrun
        exact absurd hrun (by simp)
      | some x =>
        obtain ⟨h1, r1, l1⟩ := x
        rw [Ledger.markPaid_cons_neg_some k v rest t h1 r1 l1 hv hrec] at hrun
        simp only [Option.some.injEq, Prod.mk.injEq] at hrun
        obtain ⟨hh, hr, hl⟩ := hrun
        rw [hh, hr] at hrec
        rw [List.map_cons]
        exact List.mem_cons_of_mem _ (ih l1 hrec)

theorem Ledger.markPaid_get_self (l : Ledger) (t : String) (h : Nat)
    (rec : InvoiceRecord) (l2 : Ledger) (hwf : Ledger.wf l)
    (hrun : Ledger.markPaidByInvoiceId l t = some (h, rec, l2)) :
    Ledger.get l2 h = some rec := by
  induction l generalizing l2 with
  | nil => simp [Ledger.markPaidByInvoiceId] at hrun
  | cons kv rest ih =>
    obtain ⟨k, v⟩ := kv
    by_cases hv : v.invoice_id = t
    · rw [Ledger.markPaid_cons_pos k v rest t hv] at hrun
      simp only [Option.some.injEq, Prod.mk.injEq] at hrun
      obtain ⟨hk, hr, hl⟩ := hrun
      subst hl
      rw [← hk, ← hr]
      simp [Ledger.get]
    · cases hrec : Ledger.markPaidByInvoiceId rest t with
      | none =>
        rw [Ledger.markPaid_cons_neg_none k v rest t hv hrec] at hrun
        exact absurd hrun (by simp)
      | some x =>
        obtain ⟨h1, r1, l1⟩ := x
        rw [Ledger.markPaid_cons_neg_some k v rest t h1 r1 l1 hv hrec] at hrun
        simp only [Option.some.injEq, Prod.mk.injEq] at hrun
        obtain ⟨hh, hr, hl⟩ := hrun
        rw [hh, hr] at hrec
        subst hl
        have hmem : h ∈ rest.map Prod.fst :=
          Ledger.markPaid_mem_keys rest t h rec l1 hrec
        have hkne : k ≠ h := by
          intro he
          subst he
          exact (List.nodup_cons.mp hwf).1 hmem
        have hwfrest : Ledger.wf rest := (List.nodup_cons.mp hwf).2
        simp [Ledger.get, hkne, ih l1 hwfrest hrec]

theorem Ledger.markPaid_idem (l : Ledger) (t : String) (h : Nat)
    (rec : InvoiceRecord) (l2 : Ledger)
    (hrun : Ledger.markPaidByInvoiceId l t = some (h, rec, l2)) :
    Ledger.markPaidByInvoiceId l2 t = some (h, rec, l2) := by
  induction l generalizing l2 with
  | nil => simp [Ledger.markPaidByInvoiceId] at hrun
  | cons kv rest ih =>
    obtain ⟨k, v⟩ := kv
    by_cases hv : v.invoice_id = t
    · rw [Ledger.markPaid_cons_pos k v rest t hv] at hrun
      simp only [Option.some.injEq, Prod.mk.injEq] at hrun
      obtain ⟨hk, hr, hl⟩ := hrun
      subst hl
      rw [← hk, ← hr]
      simp [Ledger.markPaidByInvoiceId, hv]
    · cases hrec : Ledger.markPaidByInvoiceId rest t with
      | none =>
        rw [Ledger.markPaid_cons_neg_none k v rest t hv hrec] at hrun
        exact absurd hrun (by simp)
      | some x =>
        obtain ⟨h1, r1, l1⟩ := x
        rw [Ledger.markPaid_cons_neg_some k v rest t h1 r1 l1 hv hrec] at hrun
        simp only [Option.some.injEq, Prod.mk.injEq] at hrun
        obtain ⟨hh, hr, hl⟩ := hrun
        rw [hh, hr] at hrec
        subst hl
        exact Ledger.markPaid_cons_neg_some k v l1 t h rec l1 hv (ih l1 hrec)

/-! ### Record preservation (the settled-flag invariant) -/

/-- Relation between ledgers before and after an operation: every existing
record is still present and unchanged, except possibly for its `paid` flag,
which may only go from `false` to `true`. -/
def RecordPreserved (old new : Ledger) : Prop :=
  ∀ h r, Ledger.get old h = some r →
    Ledger.get new h = some r ∨
      (r.paid = false ∧ Ledger.get new h = some { r with paid := true })

theorem RecordPreserved.refl (l : Ledger) : RecordPreserved l l := by
  intro h r hget
  exact Or.inl hget

theorem Ledger.insert_preserves_fresh (l : Ledger) (h : Nat) (r : InvoiceRecord)
    (hfresh : Ledger.get l h = none) :
    RecordPreserved l (Ledger.insert l h r) := by
  intro h2 r2 hget
  left
  have hne : h ≠ h2 := by
    intro he
    subst he
    rw [hfresh] at hget
    exact Option.noConfusion hget
  rw [Ledger.get_insert_ne l h h2 r hne]
  exact hget

theorem Ledger.get_cons_self (k : Nat) (v : InvoiceRecord) (rest : Ledger) :
    Ledger.get ((k, v) :: rest) k = some v := by
  simp [Ledger.get]

theorem Ledger.get_cons_ne (k h : Nat) (v : InvoiceRecord) (rest : Ledger)
    (hkh : k ≠ h) : Ledger.get ((k, v) :: rest) h = Ledger.get rest h := by
  simp [Ledger.get, hkh]

theorem InvoiceRecord.update_paid_self (r : InvoiceRecord) (hp : r.paid = true) :
    { r with paid := true } = r := by
  cases r
  simp_all

theorem Ledger.markPaid_preserves (l : Ledger) (t : String) (h : Nat)
    (rec : InvoiceRecord) (l2 : Ledger)
    (hrun : Ledger.markPaidByInvoiceId l t = some (h, rec, l2)) :
    RecordPreserved l l2 := by
  induction l generalizing l2 with
  | nil => simp [Ledger.markPaidByInvoiceId] at hrun
  | cons kv rest ih =>
    obtain ⟨k, v⟩ := kv
    by_cases hv : v.invoice_id = t
    · rw [Ledger.markPaid_cons_pos k v rest t hv] at hrun
      simp only [Option.some.injEq, Prod.mk.injEq] at hrun
      obtain ⟨hk, hr, hl⟩ := hrun
      subst hl
      intro h2 r2 hget
      by_cases hkh : k = h2
      · subst hkh
        rw [Ledger.get_cons_self] at hget
        obtain rfl : v = r2 := (Option.some.injEq _ _).mp hget
        rw [Ledger.get_cons_self]
        cases hp : v.paid with
        | false => exact Or.inr ⟨rfl, rfl⟩
        | true => exact Or.inl (by rw [InvoiceRecord.update_paid_self v hp])
      · rw [Ledger.get_cons_ne k h2 v rest hkh] at hget
        rw [Ledger.get_cons_ne k h2 _ rest hkh]
        exact Or.inl hget
    · cases hrec : Ledger.markPaidByInvoiceId rest t with
      | none =>
        rw [Ledger.markPaid_cons_neg_none k v rest t hv hrec] at hrun
        exact absurd hrun (by simp)
      | some x =>
        obtain ⟨h1, r1, l1⟩ := x
        rw [Ledger.markPaid_cons_neg_some k v rest t h1 r1 l1 hv hrec] at hrun
        simp only [Option.some.injEq, Prod.mk.injEq] at hrun
        obtain ⟨hh, hr, hl⟩ := hrun
        rw [hh, hr] at hrec
        subst hl
        intro h2 r2 hget
        by_cases hkh : k = h2
        · subst hkh
          rw [Ledger.get_cons_self] at hget
          rw [Ledger.get_cons_self]
          exact Or.inl hget
        · rw [Ledger.get_cons_ne k h2 v rest hkh] at hget
          rw [Ledger.get_cons_ne k h2 v l1 hkh]
          exact ih l1 hrec h2 r2 hget

/-- One invocation of any state-affecting operation of the backend facade,
relating the wallet state before to the wallet state after.  `create` carries
the freshness of the randomly generated key, which the source relies on
(collisions are "treated as negligible ... not defended against explicitly").
`query` covers the read-only operations (`get_settings`,
`check_incoming_payment_status`, `check_outgoing_payment`,
`is_wait_invoice_active`), which do not change the state.  `deliver` is the
attached stream taking one queued signal out of the channel. -/
inductive WalletStep : WalletState → WalletState → Prop where
  | create {w w2 : WalletState} (u : CurrencyUnit) (options : IncomingPaymentOptions)
      (invoiceId : String) (randomHash : Nat)
      (resp : CreateIncomingPaymentResponse)
      (hfresh : Ledger.get w.invoices randomHash = none)
      (hrun : createIncomingPaymentRequest w u options invoiceId randomHash =
        some (.ok (resp, w2))) :
      WalletStep w w2
  | pay {w w2 : WalletState} (u : CurrencyUnit) (options : OutgoingPaymentOptions)
      (resp : MakePaymentResponse)
      (hrun : makePayment w u options = .ok (resp, w2)) :
      WalletStep w w2
  | waitEvent {w w2 : WalletState} (s : EventStream)
      (hrun : waitPaymentEvent w = .ok (s, w2)) :
      WalletStep w w2
  | cancel (w : WalletState) :
      WalletStep w (cancelWaitInvoice w)
  | deliver (w : WalletState) (h : Nat) (rest : List Nat)
      (hbuf : w.channel.buffer = h :: rest) :
      WalletStep w { w with channel := { w.channel with buffer := rest } }
  | query (w : WalletState) :
      WalletStep w w

/-! ### Concrete scenario states -/

/-- The response of `create_incoming_payment_request` on a fresh Sat wallet for
amount 1000, generated invoice id `"inv-1"`, generated hash 7. -/
def sampleCreateResp : CreateIncomingPaymentResponse :=
  { request_lookup_id := .paymentHash 7, request := "inv-1", expiry := none }

/-- Wallet state after `SimpleWallet::new(Sat)` followed by that creation call:
one pre-settled record in the ledger, its hash queued in the channel. -/
def walletAfterCreate : WalletState :=
  { channel := { buffer := [7], capacity := 32, receiverAlive := true }
    receiverSlot := true
    invoices := [(7, { invoice_id := "inv-1", paid := true, amount := 1000, unit := .sat })]
    cancelTokenCancelled := false
    waitInvoiceIsActive := false
    settings :=
      { mpp := false
        unit := .sat
        invoice_description := true
        amountless := false
        bolt12 := false } }

/-- `walletAfterCreate` after `wait_payment_event` took the receiver. -/
def walletAttached : WalletState :=
  { walletAfterCreate with receiverSlot := false }

/-- Like `walletAfterCreate` but with the record still unsettled, to exercise
the `false → true` transition of `make_payment`. -/
def walletUnpaid : WalletState :=
  { walletAfterCreate with
      invoices := [(7, { invoice_id := "inv-1", paid := false, amount := 1000, unit := .sat })] }

/-- The outgoing request whose invoice renders as `"inv-1"`. -/
def sampleOutgoing : Bolt11OutgoingOptions :=
  { bolt11 := { rendered := "inv-1", amountMilliSatoshis := some 1000 }
    melt_options := none }

/-- The response `make_payment` produces for `sampleOutgoing` against the
sample ledger. -/
def samplePayResp : MakePaymentResponse :=
  { payment_lookup_id := .paymentHash 7
    payment_proof := some "inv-1"
    status := .paid
    total_spent := 1000
    unit := .sat }

/-- A fresh Sat wallet with the channel buffer completely full (32 queued
signals) and the receiver alive: reachable by 32 creation calls with no
consumer draining the channel. -/
def walletFullChannel : WalletState :=
  { SimpleWallet.new .sat with
      channel := { buffer := List.replicate 32 0, capacity := 32, receiverAlive := true } }

/-- A fresh Sat wallet right after `wait_payment_event` took the receiver. -/
def walletAttachedFresh : WalletState :=
  { SimpleWallet.new .sat with receiverSlot := false }

/-! ### Claim theorems -/

/-- C1: a Bolt11 `create_incoming_payment_request` inserts a pre-settled record
with the requested amount and unit, returns an absent expiry, and
`check_incoming_payment_status` on the returned identifier immediately yields
exactly one settled response carrying that amount and unit. -/
theorem create_incoming_settles_and_reports (w : WalletState) (u : CurrencyUnit)
    (o : Bolt11IncomingOptions) (invoiceId : String) (randomHash : Nat)
    (resp : CreateIncomingPaymentResponse) (w2 : WalletState)
    (hrun : createIncomingPaymentRequest w u (.bolt11 o) invoiceId randomHash =
      some (.ok (resp, w2))) :
    resp.expiry = none ∧
    resp.request_lookup_id = .paymentHash randomHash ∧
    resp.request = invoiceId ∧
    Ledger.get w2.invoices randomHash =
      some { invoice_id := invoiceId, paid := true, amount := o.amount, unit := u } ∧
    checkIncomingPaymentStatus w2 resp.request_lookup_id =
      .ok [{ payment_identifier := .paymentHash randomHash
             payment_amount := o.amount
             unit := u
             payment_id := invoiceId }] := by
  simp only [createIncomingPaymentRequest] at hrun
  cases hsend : mpscSend w.channel randomHash with
  | sent c2 =>
    rw [hsend] at hrun
    simp only [Option.some.injEq, Except.ok.injEq, Prod.mk.injEq] at hrun
    obtain ⟨hresp, hw2⟩ := hrun
    subst hresp
    subst hw2
    refine ⟨rfl, rfl, rfl, Ledger.get_insert_self _ _ _, ?_⟩
    simp [checkIncomingPaymentStatus, Ledger.get_insert_self]
  | closedDropped =>
    rw [hsend] at hrun
    simp only [Option.some.injEq, Except.ok.injEq, Prod.mk.injEq] at hrun
    obtain ⟨hresp, hw2⟩ := hrun
    subst hresp
    subst hw2
    refine ⟨rfl, rfl, rfl, Ledger.get_insert_self _ _ _, ?_⟩
    simp [checkIncomingPaymentStatus, Ledger.get_insert_self]
  | wouldBlock =>
    rw [hsend] at hrun
    exact absurd hrun (by simp)

/-- C1 witness: the theorem applied to a fresh Sat wallet, amount 1000,
invoice id `"inv-1"`, hash 7. -/
theorem create_incoming_settles_and_reports_witness :
    sampleCreateResp.expiry = none ∧
    sampleCreateResp.request_lookup_id = .paymentHash 7 ∧
    sampleCreateResp.request = "inv-1" ∧
    Ledger.get walletAfterCreate.invoices 7 =
      some { invoice_id := "inv-1", paid := true, amount := 1000, unit := .sat } ∧
    checkIncomingPaymentStatus walletAfterCreate sampleCreateResp.request_lookup_id =
      .ok [{ payment_identifier := .paymentHash 7
             payment_amount := 1000
             unit := .sat
             payment_id := "inv-1" }] :=
  create_incoming_settles_and_reports (SimpleWallet.new .sat) .sat
    { amount := 1000, unix_expiry := none } "inv-1" 7 sampleCreateResp
    walletAfterCreate rfl

/-- C2: contrary to the claim, raising the cancellation signal does not stop an
attached stream.  `cancel_wait_invoice` cancels the token, but the stream built
by `wait_payment_event` never observes that token: with a settled payment
queued, the delivery attempt after cancellation still produces an event instead
of ending the sequence. -/
theorem cancel_does_not_stop_attached_stream :
    waitPaymentEvent walletAfterCreate = .ok (.attached, walletAttached) ∧
    (cancelWaitInvoice walletAttached).cancelTokenCancelled = true ∧
    streamEvents (cancelWaitInvoice walletAttached) .attached =
      [.paymentReceived
        { payment_identifier := .paymentHash 7
          payment_amount := 1000
          unit := .sat
          payment_id := "inv-1" }] := by
  exact ⟨rfl, rfl, rfl⟩

/-- C3: contrary to the claim, `is_wait_invoice_active` does not return true
after a stream is handed out.  The `wait_invoice_is_active` flag is loaded by
`is_wait_invoice_active` but never stored anywhere, so it stays at its initial
`false` even when the receiver was present in the slot and was just taken. -/
theorem active_flag_stays_false_after_attach :
    (SimpleWallet.new .sat).receiverSlot = true ∧
    waitPaymentEvent (SimpleWallet.new .sat) = .ok (.attached, walletAttachedFresh) ∧
    isWaitInvoiceActive walletAttachedFresh = false := by
  exact ⟨rfl, rfl, rfl⟩

/-- C4 counterexample: with the channel full and the receiver alive,
`self.sender.send(random_hash).await` suspends awaiting capacity, so
`create_incoming_payment_request` blocks — the send is not dropped silently for
every channel state. -/
theorem create_blocks_on_full_channel :
    walletFullChannel.channel.receiverAlive = true ∧
    walletFullChannel.channel.buffer.length = walletFullChannel.channel.capacity ∧
    createIncomingPaymentRequest walletFullChannel .sat
      (.bolt11 { amount := 5, unix_expiry := none }) "inv-x" 9 = none := by
  exact ⟨rfl, rfl, rfl⟩

/-- C4 amended: the send during creation is best-effort only with respect to a
missing consumer — if the receiving end is gone the send error is discarded and
creation still succeeds with the channel untouched; if there is capacity the
signal is enqueued and creation succeeds; creation blocks exactly when the
channel is full while the receiver is alive, and it never returns an error
because no consumer is listening. -/
theorem create_send_best_effort_amended (w : WalletState) (u : CurrencyUnit)
    (o : Bolt11IncomingOptions) (invoiceId : String) (randomHash : Nat) :
    (w.channel.receiverAlive = false →
      createIncomingPaymentRequest w u (.bolt11 o) invoiceId randomHash =
        some (.ok
          ({ request_lookup_id := .paymentHash randomHash
             request := invoiceId
             expiry := none },
           { w with
               invoices := Ledger.insert w.invoices randomHash
                 { invoice_id := invoiceId, paid := true, amount := o.amount, unit := u } }))) ∧
    (w.channel.receiverAlive = true →
      w.channel.buffer.length < w.channel.capacity →
      createIncomingPaymentRequest w u (.bolt11 o) invoiceId randomHash =
        some (.ok
          ({ request_lookup_id := .paymentHash randomHash
             request := invoiceId
             expiry := none },
           { w with
               invoices := Ledger.insert w.invoices randomHash
                 { invoice_id := invoiceId, paid := true, amount := o.amount, unit := u },
               channel := { w.channel with buffer := w.channel.buffer ++ [randomHash] } }))) ∧
    (createIncomingPaymentRequest w u (.bolt11 o) invoiceId randomHash = none →
      w.channel.receiverAlive = true ∧ w.channel.capacity ≤ w.channel.buffer.length) := by
  refine ⟨?_, ?_, ?_⟩
  · intro hdead
    simp [createIncomingPaymentRequest, mpscSend, hdead]
  · intro halive hcap
    simp [createIncomingPaymentRequest, mpscSend, halive, hcap]
  · intro hnone
    cases ha : w.channel.receiverAlive with
    | false => simp [createIncomingPaymentRequest, mpscSend, ha] at hnone
    | true =>
      refine ⟨rfl, ?_⟩
      by_cases hcap : w.channel.buffer.length < w.channel.capacity
      · simp [createIncomingPaymentRequest, mpscSend, ha, hcap] at hnone
      · exact Nat.le_of_not_lt hcap

/-- C4 amended witness: the capacity branch of the amended theorem applied to a
fresh Sat wallet. -/
theorem create_send_best_effort_amended_witness :
    createIncomingPaymentRequest (SimpleWallet.new .sat) .sat
      (.bolt11 { amount := 1000, unix_expiry := none }) "inv-1" 7 =
      some (.ok
        ({ request_lookup_id := .paymentHash 7
           request := "inv-1"
           expiry := none },
         { SimpleWallet.new .sat with
             invoices := Ledger.insert (SimpleWallet.new .sat).invoices 7
               { invoice_id := "inv-1", paid := true, amount := 1000, unit := .sat },
             channel := { (SimpleWallet.new .sat).channel with
               buffer := (SimpleWallet.new .sat).channel.buffer ++ [7] } })) :=
  (create_send_best_effort_amended (SimpleWallet.new .sat) .sat
    { amount := 1000, unix_expiry := none } "inv-1" 7).2.1 rfl (by decide)

/-- C5: `make_payment` with a Bolt11 request succeeds exactly when some ledger
record's invoice id matches the request's rendered invoice; on success it
returns proof-of-payment equal to that reference string, status paid, the
matched record's amount and unit, and the record is settled in the new state;
it fails with `Custom "Invoice not found"` when nothing matches and with
`Custom "Unsupported Bolt12"` for the unsupported variant. -/
theorem make_payment_contract (w : WalletState) (u : CurrencyUnit)
    (o : Bolt11OutgoingOptions) (hwf : Ledger.wf w.invoices) :
    (exceptIsOk (makePayment w u (.bolt11 o)) =
      (Ledger.findByInvoiceId w.invoices o.bolt11.rendered).isSome) ∧
    (∀ h rec r w2,
      Ledger.findByInvoiceId w.invoices o.bolt11.rendered = some (h, rec) →
      makePayment w u (.bolt11 o) = .ok (r, w2) →
      r = { payment_lookup_id := .paymentHash h
            payment_proof := some o.bolt11.rendered
            status := .paid
            total_spent := rec.amount
            unit := rec.unit } ∧
      Ledger.get w2.invoices h = some { rec with paid := true }) ∧
    (Ledger.findByInvoiceId w.invoices o.bolt11.rendered = none →
      makePayment w u (.bolt11 o) = .error (.custom "Invoice not found")) ∧
    makePayment w u .bolt12 = .error (.custom "Unsupported Bolt12") := by
  refine ⟨?_, ?_, ?_, rfl⟩
  · cases hfind : Ledger.findByInvoiceId w.invoices o.bolt11.rendered with
    | none =>
      have hmp := Ledger.markPaid_none_of_find_none _ _ hfind
      simp [makePayment, hmp, hfind, exceptIsOk]
    | some x =>
      obtain ⟨h, rec⟩ := x
      obtain ⟨l2, hmp⟩ := Ledger.markPaid_of_find _ _ _ _ hfind
      simp [makePayment, hmp, hfind, exceptIsOk]
  · intro h rec r w2 hfind hrun
    obtain ⟨l2, hmp⟩ := Ledger.markPaid_of_find _ _ _ _ hfind
    simp only [makePayment, hmp, Except.ok.injEq, Prod.mk.injEq] at hrun
    obtain ⟨hr, hw⟩ := hrun
    constructor
    · rw [← hr]
    · rw [← hw]
      exact Ledger.markPaid_get_self _ _ _ _ _ hwf hmp
  · intro hfind
    have hmp := Ledger.markPaid_none_of_find_none _ _ hfind
    simp [makePayment, hmp]

/-- C5 witness: paying the sample reference `"inv-1"` against the sample
ledger. -/
theorem make_payment_contract_witness :
    samplePayResp =
      { payment_lookup_id := .paymentHash 7
        payment_proof := some "inv-1"
        status := .paid
        total_spent := 1000
        unit := .sat } ∧
    Ledger.get walletAfterCreate.invoices 7 =
      some { invoice_id := "inv-1", paid := true, amount := 1000, unit := CurrencyUnit.sat } :=
  (make_payment_contract walletUnpaid .sat sampleOutgoing (by simp [Ledger.wf, walletUnpaid])).2.1 7
    { invoice_id := "inv-1", paid := false, amount := 1000, unit := .sat }
    samplePayResp walletAfterCreate rfl rfl

/-- C6: `make_payment` is idempotent — if a call succeeded with response `r`
and state `w2`, the same call on `w2` returns exactly `.ok (r, w2)` again
(status paid, same total spent, no further state change). -/
theorem make_payment_idempotent (w : WalletState) (u : CurrencyUnit)
    (options : OutgoingPaymentOptions) (r : MakePaymentResponse) (w2 : WalletState)
    (hrun : makePayment w u options = .ok (r, w2)) :
    makePayment w2 u options = .ok (r, w2) ∧ r.status = .paid := by
  cases options with
  | bolt12 => simp [makePayment] at hrun
  | bolt11 o =>
    simp only [makePayment] at hrun
    cases hmp : Ledger.markPaidByInvoiceId w.invoices o.bolt11.rendered with
    | none =>
      rw [hmp] at hrun
      exact absurd hrun (by simp)
    | some x =>
      obtain ⟨h, rec, l2⟩ := x
      rw [hmp] at hrun
      simp only [Except.ok.injEq, Prod.mk.injEq] at hrun
      obtain ⟨hr, hw⟩ := hrun
      have hidem := Ledger.markPaid_idem w.invoices o.bolt11.rendered h rec l2 hmp
      constructor
      · rw [← hw, ← hr]
        simp [makePayment, hidem]
      · rw [← hr]

/-- C6 witness: the second payment of `"inv-1"` returns the same settled
result and leaves the ledger as it was after the first. -/
theorem make_payment_idempotent_witness :
    (makePayment walletAfterCreate .sat (.bolt11 sampleOutgoing) =
      .ok (samplePayResp, walletAfterCreate)) ∧ samplePayResp.status = .paid :=
  make_payment_idempotent walletUnpaid .sat (.bolt11 sampleOutgoing)
    samplePayResp walletAfterCreate rfl

/-- C7: `wait_payment_event` never fails; when the receiver slot is already
empty it returns the empty, immediately-terminating stream (zero events) and
changes nothing. -/
theorem wait_payment_event_never_fails (w : WalletState) :
    exceptIsOk (waitPaymentEvent w) = true ∧
    (w.receiverSlot = false →
      waitPaymentEvent w = .ok (.empty, w) ∧ streamEvents w .empty = []) := by
  constructor
  · by_cases hs : w.receiverSlot = true <;> simp [waitPaymentEvent, exceptIsOk, hs]
  · intro hempty
    exact ⟨by simp [waitPaymentEvent, hempty], rfl⟩

/-- C7 witness: asking for the stream while one is already attached. -/
theorem wait_payment_event_never_fails_witness :
    exceptIsOk (waitPaymentEvent walletAttached) = true ∧
    (waitPaymentEvent walletAttached = .ok (.empty, walletAttached) ∧
      streamEvents walletAttached .empty = []) :=
  ⟨(wait_payment_event_never_fails walletAttached).1,
   (wait_payment_event_never_fails walletAttached).2 rfl⟩

/-- C8: `get_payment_quote` on a Bolt11 request quotes the requested amount
(melt options first, else the invoice amount) with the freshly generated
lookup hash, zero fee and the unpaid state; it fails with
`Custom "Unknown invoice amount"` when no amount can be determined and with
`Custom "Unsupported Bolt12"` for the unsupported variant. -/
theorem get_payment_quote_contract (w : WalletState) (uArg : CurrencyUnit)
    (o : Bolt11OutgoingOptions) (randomHash : Nat) :
    (∀ m, o.melt_options = some m →
      getPaymentQuote w uArg (.bolt11 o) randomHash =
        .ok { request_lookup_id := some (.paymentHash randomHash)
              amount := m.amountMsat
              fee := 0
              state := .unpaid
              unit := .msat }) ∧
    (∀ a, o.melt_options = none → o.bolt11.amountMilliSatoshis = some a →
      getPaymentQuote w uArg (.bolt11 o) randomHash =
        .ok { request_lookup_id := some (.paymentHash randomHash)
              amount := a
              fee := 0
              state := .unpaid
              unit := .msat }) ∧
    (o.melt_options = none → o.bolt11.amountMilliSatoshis = none →
      getPaymentQuote w uArg (.bolt11 o) randomHash =
        .error (.custom "Unknown invoice amount")) ∧
    getPaymentQuote w uArg .bolt12 randomHash =
      .error (.custom "Unsupported Bolt12") := by
  refine ⟨?_, ?_, ?_, rfl⟩
  · intro m hm
    simp [getPaymentQuote, hm]
  · intro a hm ha
    simp [getPaymentQuote, hm, ha]
  · intro hm ha
    simp [getPaymentQuote, hm, ha]

/-- C8 witness: a quote with explicit melt options for 2500 msat. -/
theorem get_payment_quote_contract_witness :
    getPaymentQuote (SimpleWallet.new .sat) .sat
      (.bolt11 { bolt11 := { rendered := "lnbc1", amountMilliSatoshis := none }
                 melt_options := some { amountMsat := 2500 } }) 99 =
      .ok { request_lookup_id := some (.paymentHash 99)
            amount := 2500
            fee := 0
            state := .unpaid
            unit := .msat } :=
  (get_payment_quote_contract (SimpleWallet.new .sat) .sat
    { bolt11 := { rendered := "lnbc1", amountMilliSatoshis := none }
      melt_options := some { amountMsat := 2500 } } 99).1 { amountMsat := 2500 } rfl

/-- C9: under every operation of the backend (creation with a fresh random
key, outgoing payment, stream attachment, cancellation, signal delivery, and
the read-only queries), every existing ledger record is preserved unchanged
except possibly for its `paid` flag, which may only transition from `false`
to `true`. -/
theorem operations_preserve_records (w w2 : WalletState)
    (hstep : WalletStep w w2) :
    RecordPreserved w.invoices w2.invoices := by
  cases hstep with
  | create u options invoiceId randomHash resp hfresh hrun =>
    cases options with
    | bolt12 => simp [createIncomingPaymentRequest] at hrun
    | bolt11 o =>
      simp only [createIncomingPaymentRequest] at hrun
      cases hsend : mpscSend w.channel randomHash with
      | sent c2 =>
        rw [hsend] at hrun
        simp only [Option.some.injEq, Except.ok.injEq, Prod.mk.injEq] at hrun
        rw [← hrun.2]
        exact Ledger.insert_preserves_fresh _ _ _ hfresh
      | closedDropped =>
        rw [hsend] at hrun
        simp only [Option.some.injEq, Except.ok.injEq, Prod.mk.injEq] at hrun
        rw [← hrun.2]
        exact Ledger.insert_preserves_fresh _ _ _ hfresh
      | wouldBlock =>
        rw [hsend] at hrun
        exact absurd hrun (by simp)
  | pay u options resp hrun =>
    cases options with
    | bolt12 => simp [makePayment] at hrun
    | bolt11 o =>
      simp only [makePayment] at hrun
      cases hmp : Ledger.markPaidByInvoiceId w.invoices o.bolt11.rendered with
      | none =>
        rw [hmp] at hrun
        exact absurd hrun (by simp)
      | some x =>
        obtain ⟨h, rec, l2⟩ := x
        rw [hmp] at hrun
        simp only [Except.ok.injEq, Prod.mk.injEq] at hrun
        rw [← hrun.2]
        exact Ledger.markPaid_preserves _ _ _ _ _ hmp
  | waitEvent s hrun =>
    simp only [waitPaymentEvent] at hrun
    by_cases hs : w.receiverSlot = true
    · rw [if_pos hs] at hrun
      simp only [Except.ok.injEq, Prod.mk.injEq] at hrun
      rw [← hrun.2]
      exact RecordPreserved.refl _
    · rw [if_neg hs] at hrun
      simp only [Except.ok.injEq, Prod.mk.injEq] at hrun
      rw [← hrun.2]
      exact RecordPreserved.refl _
  | cancel => exact RecordPreserved.refl _
  | deliver h rest hbuf => exact RecordPreserved.refl _
  | query => exact RecordPreserved.refl _

/-- C9 witness: the preservation theorem applied to the concrete creation step
from the fresh Sat wallet. -/
theorem operations_preserve_records_witness :
    RecordPreserved (SimpleWallet.new .sat).invoices walletAfterCreate.invoices :=
  operations_preserve_records (SimpleWallet.new .sat) walletAfterCreate
    (WalletStep.create .sat
      (.bolt11 { amount := 1000, unix_expiry := none }) "inv-1" 7
      sampleCreateResp rfl rfl)

/-- C10: every successful `get_payment_quote` carries unit `Msat`, and the
result depends neither on the unit argument nor on the currency unit the
wallet was constructed with. -/
theorem quote_ignores_unit_and_wallet (w : WalletState)
    (uArg uArg2 cu cu2 : CurrencyUnit) (options : OutgoingPaymentOptions)
    (randomHash : Nat) :
    (∀ q, getPaymentQuote w uArg options randomHash = .ok q → q.unit = .msat) ∧
    getPaymentQuote w uArg options randomHash =
      getPaymentQuote w uArg2 options randomHash ∧
    getPaymentQuote (SimpleWallet.new cu) uArg options randomHash =
      getPaymentQuote (SimpleWallet.new cu2) uArg options randomHash := by
  refine ⟨?_, rfl, rfl⟩
  intro q hq
  cases options with
  | bolt12 => simp [getPaymentQuote] at hq
  | bolt11 o =>
    obtain ⟨b, mo⟩ := o
    cases mo with
    | some m =>
      simp only [getPaymentQuote, Except.ok.injEq] at hq
      rw [← hq]
    | none =>
      obtain ⟨rend, ams⟩ := b
      cases ams with
      | some a =>
        simp only [getPaymentQuote, Except.ok.injEq] at hq
        rw [← hq]
      | none => simp [getPaymentQuote] at hq

/-- C10 witness: the same quote under unit arguments Usd and Eur. -/
theorem quote_ignores_unit_and_wallet_witness :
    ({ request_lookup_id := some (.paymentHash 99)
       amount := 2500
       fee := 0
       state := .unpaid
       unit := .msat } : PaymentQuoteResponse).unit = .msat ∧
    getPaymentQuote (SimpleWallet.new .sat) .usd
      (.bolt11 { bolt11 := { rendered := "lnbc1", amountMilliSatoshis := none }
                 melt_options := some { amountMsat := 2500 } }) 99 =
      getPaymentQuote (SimpleWallet.new .sat) .eur
        (.bolt11 { bolt11 := { rendered := "lnbc1", amountMilliSatoshis := none }
                   melt_options := some { amountMsat := 2500 } }) 99 :=
  ⟨(quote_ignores_unit_and_wallet (SimpleWallet.new .sat) .usd .eur .sat .sat
      (.bolt11 { bolt11 := { rendered := "lnbc1", amountMilliSatoshis := none }
                 melt_options := some { amountMsat := 2500 } }) 99).1 _ rfl,
   (quote_ignores_unit_and_wallet (SimpleWallet.new .sat) .usd .eur .sat .sat
      (.bolt11 { bolt11 := { rendered := "lnbc1", amountMilliSatoshis := none }
                 melt_options := some { amountMsat := 2500 } }) 99).2.1⟩
